import Mathlib

/-!
Shallow embedding of the BLE-Tutor lock controller
(src/ArduinoNano33/sketch_lock_gatt_server/): the debounced input helper
(InputHelper.h), the timeout-capable monitor revision used through
ClassInputHelper.h, and the Lock state machine (Lock.h).

Machine integers are modelled as Int (C long / int) and Nat (bit-flag
enumeration values); the one place where unsigned conversion matters,
the cast in Lock::getUnlockTime, is modelled explicitly as reduction
modulo 2 ^ 32.  Pin levels (C int 0 / 1 from digitalRead) are modelled
as Bool.  Callback invocations are modelled as emitted events (returned
options or appended event lists).  Within one poll tick the Arduino
clock millis() is modelled as a single sampled value passed to each
call site.
-/

/-! ## Constants (Common.h and Lock.h) -/

/-- Constant MAX_PACKET_LENGTH from Common.h: maximum BLE characteristic
write payload, 20 bytes. -/
def MAX_PACKET_LENGTH : Nat := 20

/-- Constant MAX_UNLOCK_TIMES from Lock.h: capacity of the unlock-history
ring buffer. -/
def MAX_UNLOCK_TIMES : Nat := 10

/-- Constant DEFAULT_UNLOCK_TIME_MS from Lock.h: default time the lock
stays open, in milliseconds. -/
def DEFAULT_UNLOCK_TIME_MS : Int := 5000

/-- Constant SECRET_CODE_DELAY_MS from Lock.h: hold time of the
multi-purpose button before the secret code may be updated. -/
def SECRET_CODE_DELAY_MS : Int := 5000

/-- Constant FULL_LOG_DURATION_MS from Lock.h: hold time of the
multi-purpose button before a full log message is sent. -/
def FULL_LOG_DURATION_MS : Int := 2000

/-- Constant SECRET_CODE_MAX_LENGTH from Lock.h: capacity of the stored
secret-code buffer, equal to MAX_PACKET_LENGTH. -/
def SECRET_CODE_MAX_LENGTH : Nat := MAX_PACKET_LENGTH

/-- Enumerator LockState::Locked (value 1) from Lock.h. -/
def LockState.Locked : Nat := 1

/-- Enumerator LockState::Unlocked (value 2) from Lock.h. -/
def LockState.Unlocked : Nat := 2

/-- Enumerator LockState::ManuallyOverridden (Unlocked + 0x10 = 18)
from Lock.h. -/
def LockState.ManuallyOverridden : Nat := LockState.Unlocked + 0x10

/-- Enumerator LockState::UpdateSecretCode (0x20 = 32) from Lock.h. -/
def LockState.UpdateSecretCode : Nat := 0x20

/-! ## Debounced input helper (InputHelper.h, toggle-only revision) -/

/-- State of an InputHelper instance (InputHelper.h): the monitored pin,
the last stable state, and the time of the last confirmed change. -/
structure InputHelper where
  pin : Int
  lastState : Bool
  lastChangeMs : Int
deriving Repr, DecidableEq

/-- Translation of InputHelper::poll (InputHelper.h lines 45-59).  The
two digitalRead samples, taken 10 ms apart, are the inputs a and b; now
is the millis() value captured at the top of the call.  When both
samples agree and differ from the last stable state, the callback is
signalled with the pin, the new state and the duration since the last
confirmed change, and then lastState and lastChangeMs are updated.  The
signalled callback arguments are returned as an event option. -/
def InputHelper.poll (st : InputHelper) (now : Int) (a b : Bool) :
    InputHelper × Option (Int × Bool × Int) :=
  if a = b ∧ a ≠ st.lastState then
    ({ st with lastState := a, lastChangeMs := now },
     some (st.pin, a, now - st.lastChangeMs))
  else
    (st, none)

/-! ## Timeout-capable monitor (the InputHelper revision behind
ClassInputHelper.h) -/

/-- Modelled from the spec: the timeout-capable revision of InputHelper
that ClassInputHelper.h builds on (its 4-argument base constructor with
a timeout_duration_ms parameter, and the signalToggleCallback and
signalTimeoutCallback hooks it overrides) is not among the sources
under src/; only the 2-argument toggle-only revision of InputHelper.h
is.  The Signal state is taken from spec section 3: pin, stable_state,
last_change_time and armed_since, where armed_since is set when the
stable state becomes logical-high and cleared when it returns low or a
timeout fires. -/
structure Monitor where
  pin : Int
  lastState : Bool
  lastChangeMs : Int
  armedSince : Option Int
deriving Repr, DecidableEq

/-- Modelled from the spec (section 4.1), toggle phase as in
InputHelper::poll of the revision in src/: reads the input twice, the
settle delay apart; if both reads agree and differ from the current
stable state the toggle callback is signalled with the pin, new state
and duration since the last change, and the stable state, last-change
time and arming are updated.  The timeout phase is the spec's timeout
evaluation: if the stable state is logical-high and the time since it
became high reaches the timeout duration, the timeout callback is
signalled once and the arming is cleared.  A monitor constructed with
no timeout callback (timeoutMs = none) never signals a timeout.  The
result carries the new state, the toggle event and the timeout event. -/
def Monitor.poll (m : Monitor) (timeoutMs : Option Int) (now : Int) (a b : Bool) :
    Monitor × Option (Int × Bool × Int) × Option (Int × Int) :=
  let togRes :=
    if a = b ∧ a ≠ m.lastState then
      ({ m with lastState := a, lastChangeMs := now,
                armedSince := if a then some now else none },
       some (m.pin, a, now - m.lastChangeMs))
    else (m, none)
  let m1 := togRes.1
  match timeoutMs, m1.armedSince with
  | some dur, some t0 =>
      if m1.lastState = true ∧ now - t0 ≥ dur then
        ({ m1 with armedSince := none }, togRes.2, some (m1.pin, now - t0))
      else (m1, togRes.2, none)
  | _, _ => (m1, togRes.2, none)

/-- Count of timeout events signalled over a sequence of poll ticks,
each tick giving the millis() sample and the two pin reads. -/
def Monitor.runTimeoutCount (m : Monitor) (timeoutMs : Option Int) :
    List (Int × Bool × Bool) → Nat
  | [] => 0
  | t :: ts =>
      let r := m.poll timeoutMs t.1 t.2.1 t.2.2
      (if r.2.2.isSome then 1 else 0) + r.1.runTimeoutCount timeoutMs ts

/-! ## Lock state machine (Lock.h) -/

/-- State of a Lock instance (Lock.h).  The fields mirror the private
members: the two LED outputs, the override and multi-purpose input
monitors, the presence of the log callback, the unlock duration, the
last-unlocked time, the unlock-history ring buffer with its index, and
the lock state (the OR-able LockState enumeration value as a Nat).
The flash field models the Secret structure held by the FlashStorage
variable secret_code as the stored C string content: the bytes before
the terminating null.  The logEvents field records the arguments of
logCallback invocations (true = full log). -/
structure Lock where
  lockedLed : Bool
  unlockedLed : Bool
  overridePin : Monitor
  multipurposePin : Monitor
  hasLogCallback : Bool
  unlockedDurationMs : Int
  lastUnlocked : Int
  unlockTimes : List Int
  unlockIndex : Nat
  lockState : Nat
  flash : List Nat
  logEvents : List Bool
deriving Repr, DecidableEq

/-- Translation of Lock::isLocked (Lock.h lines 195-198): the lock
counts as locked when the Locked bit of lockState is set. -/
def Lock.isLocked (s : Lock) : Bool :=
  decide ((s.lockState &&& LockState.Locked) ≠ 0)

/-- Translation of Lock::updateLockState (Lock.h lines 390-397): stores
the new state.  The state-changed callback is external notification and
carries no further effect on the modelled state. -/
def Lock.updateLockState (s : Lock) (newState : Nat) : Lock :=
  { s with lockState := newState }

/-- Translation of Lock::lock (Lock.h lines 162-169): clears the
last-unlocked marker, drives the unlocked LED low and the locked LED
high, and sets the state to Locked. -/
def Lock.lock (s : Lock) : Lock :=
  Lock.updateLockState
    { s with lastUnlocked := 0, unlockedLed := false, lockedLed := true }
    LockState.Locked

/-- Translation of Lock::unlock (Lock.h lines 282-297): when the lock
is currently locked, the ring index is advanced modulo
MAX_UNLOCK_TIMES and the current millis() value is recorded there;
in every case the last-unlocked time is refreshed, the unlocked LED is
driven high, the locked LED low, and the state becomes
ManuallyOverridden or Unlocked according to the manualOverride flag. -/
def Lock.unlock (s : Lock) (now : Int) (manualOverride : Bool) : Lock :=
  let s1 :=
    if s.isLocked then
      let idx := (s.unlockIndex + 1) % MAX_UNLOCK_TIMES
      { s with unlockIndex := idx, unlockTimes := s.unlockTimes.set idx now }
    else s
  Lock.updateLockState
    { s1 with lastUnlocked := now, unlockedLed := true, lockedLed := false }
    (if manualOverride then LockState.ManuallyOverridden else LockState.Unlocked)

/-- Translation of Lock::unlockWithMessage (Lock.h lines 134-157).  The
message is the written C string as its byte content before the
terminator.  If the UpdateSecretCode bit is set the message is written
to flash storage unconditionally; otherwise, if the Locked bit is set
and the message compares equal to the stored secret (strcmp == 0), the
lock is unlocked.  Returns the updated state and the C++ return value
of the call, the negation of isLocked() on the updated state.  The
byte-level store pattern of the update branch, including its behaviour
past the buffer capacity, is modelled separately below by
secretStoreIndices and updateSecretByte. -/
def Lock.unlockWithMessage (s : Lock) (now : Int) (message : List Nat) :
    Lock × Bool :=
  let s1 :=
    if (s.lockState &&& LockState.UpdateSecretCode) ≠ 0 then
      { s with flash := message }
    else if (s.lockState &&& LockState.Locked) ≠ 0 then
      (if message = s.flash then s.unlock now false else s)
    else s
  (s1, ! s1.isLocked)

/-- Translation of Lock::getUnlockTime (Lock.h lines 226-237).  The C
computation is int index = unlockIndex - offset + MAX_UNLOCK_TIMES;
index = index % MAX_UNLOCK_TIMES (truncated C remainder, Int.tmod);
then the guard (unsigned int)index < MAX_UNLOCK_TIMES converts index to
unsigned, modelled as reduction modulo 2 ^ 32, and the value at the
resulting index is returned when the guard holds, zero otherwise. -/
def Lock.getUnlockTime (s : Lock) (offset : Int) : Int :=
  let index : Int := (s.unlockIndex : Int) - offset + (MAX_UNLOCK_TIMES : Int)
  let index1 : Int := index.tmod (MAX_UNLOCK_TIMES : Int)
  if index1 % (2 ^ 32) < (MAX_UNLOCK_TIMES : Int) then
    s.unlockTimes.getD index1.toNat 0
  else 0

/-- Translation of Lock::manualOverrideHandler (Lock.h lines 307-320):
on the input becoming high, unlock with the manual-override variant; on
it becoming low, refresh the last-unlocked time so that the normal
timeout path in poll() closes the lock after the delay. -/
def Lock.manualOverrideHandler (s : Lock) (now : Int) (state : Bool)
    (durationMs : Int) : Lock :=
  if state then s.unlock now true
  else { s with lastUnlocked := now }

/-- Translation of Lock::mpPinPressed (Lock.h lines 329-356): on
release (state low), the held duration is classified longest-first:
at least SECRET_CODE_DELAY_MS does nothing here, at least
FULL_LOG_DURATION_MS requests a full log, anything shorter requests a
brief log; requests reach the log callback only when one is set.  On a
press (state high) nothing is requested. -/
def Lock.mpPinPressed (s : Lock) (state : Bool) (durationMs : Int) : Lock :=
  if state = false then
    if durationMs ≥ SECRET_CODE_DELAY_MS then s
    else if durationMs ≥ FULL_LOG_DURATION_MS then
      (if s.hasLogCallback then { s with logEvents := s.logEvents ++ [true] }
       else s)
    else
      (if s.hasLogCallback then { s with logEvents := s.logEvents ++ [false] }
       else s)
  else s

/-- Translation of Lock::mpPinTimeout (Lock.h lines 365-383): when the
held duration reaches SECRET_CODE_DELAY_MS, the locked LED is flashed
and restored to its original state (net effect none on the modelled
output), and the UpdateSecretCode bit is OR-ed onto the lock state. -/
def Lock.mpPinTimeout (s : Lock) (durationMs : Int) : Lock :=
  if durationMs ≥ SECRET_CODE_DELAY_MS then
    s.updateLockState (LockState.UpdateSecretCode ||| s.lockState)
  else s

/-- Translation of the overridePin.poll() step inside Lock::poll.  The
override monitor is wired (Lock.h line 117) with the toggle callback
manualOverrideHandler, no timeout callback and duration 0, so only the
toggle event is consumed.  The callback is signalled before the monitor
commits its state update, as in InputHelper::poll; the handler does not
read the monitor, so the commit is applied after the handler. -/
def Lock.pollOverridePhase (s : Lock) (now : Int) (a b : Bool) : Lock :=
  let r := s.overridePin.poll none now a b
  let s1 :=
    match r.2.1 with
    | some ev => s.manualOverrideHandler now ev.2.1 ev.2.2
    | none => s
  { s1 with overridePin := r.1 }

/-- Translation of the multipurposePin.poll() step inside Lock::poll.
The multi-purpose monitor is wired (Lock.h line 118) with the toggle
callback mpPinPressed, the timeout callback mpPinTimeout and duration
SECRET_CODE_DELAY_MS. -/
def Lock.pollMpPhase (s : Lock) (now : Int) (a b : Bool) : Lock :=
  let r := s.multipurposePin.poll (some SECRET_CODE_DELAY_MS) now a b
  let s1 :=
    match r.2.1 with
    | some ev => s.mpPinPressed ev.2.1 ev.2.2
    | none => s
  let s2 :=
    match r.2.2 with
    | some ev => s1.mpPinTimeout ev.2
    | none => s1
  { s2 with multipurposePin := r.1 }

/-- Translation of the re-lock check at the end of Lock::poll (Lock.h
lines 179-187): when the override input is not asserted (its stable
state, read through operator int, is low) and the lock is not locked,
and millis() minus lastUnlocked has reached the unlock duration, the
lock is closed. -/
def Lock.relockCheck (s : Lock) (now : Int) : Lock :=
  if s.overridePin.lastState = false ∧ s.isLocked = false then
    (if now - s.lastUnlocked ≥ s.unlockedDurationMs then s.lock else s)
  else s

/-- Translation of Lock::poll (Lock.h lines 175-188): polls the
override monitor, then the multi-purpose monitor, then runs the re-lock
check.  The tick supplies the millis() sample and the two reads of each
pin. -/
def Lock.poll (s : Lock) (now : Int) (oa ob ma mb : Bool) : Lock :=
  Lock.relockCheck (Lock.pollMpPhase (Lock.pollOverridePhase s now oa ob) now ma mb) now

/-! ## Byte-level model of the secret-update store pattern -/

/-- Translation of strlen(message) for a message modelled as its byte
content before the terminating null (no interior nulls): the length of
the list. -/
def strlen (message : List Nat) : Nat := message.length

/-- Buffer indices stored to by the UpdateSecretCode branch of
Lock::unlockWithMessage (Lock.h lines 139-141): memcpy(secret.code,
message, len) stores to indices 0 to len - 1 and the following
secret.code[len] = 0 stores to index len, with len = strlen(message);
the stores carry no bound check against the capacity of the code
buffer. -/
def secretStoreIndices (message : List Nat) : List Nat :=
  List.range (strlen message + 1)

/-- Byte left at flat memory index i after the UpdateSecretCode branch
of Lock::unlockWithMessage runs over a prior memory mem (the Secret
structure occupies indices 0 to SECRET_CODE_MAX_LENGTH - 1): the
message byte for i below len, the terminating null at len, the prior
byte elsewhere.  No truncation takes place. -/
def updateSecretByte (mem : Nat → Nat) (message : List Nat) (i : Nat) : Nat :=
  if i < strlen message then message.getD i 0
  else if i = strlen message then 0
  else mem i

/-! ## Constructed initial state and unlock runs -/

/-- Initial override or multi-purpose monitor state as built by the
InputHelper constructor at time 0 with an initial low pin read: the
initial hardware level becomes the stable state and the construction
time the last-change time; no timeout window is armed. -/
def initMonitor (pin : Int) : Monitor :=
  { pin := pin, lastState := false, lastChangeMs := 0, armedSince := none }

/-- Initial Lock state as built by the Lock constructor (Lock.h lines
106-127) with the default unlock duration, a log callback installed,
low initial pin reads at time 0, and the default secret code
DEFAULT_SECRET_CODE ("BLE-Tutor") in flash: locked LED high, unlocked
LED low, lastUnlocked 0, the unlock-times buffer zeroed by memset,
index 0, state Locked. -/
def initLock : Lock :=
  { lockedLed := true
    unlockedLed := false
    overridePin := initMonitor 2
    multipurposePin := initMonitor 3
    hasLogCallback := true
    unlockedDurationMs := DEFAULT_UNLOCK_TIME_MS
    lastUnlocked := 0
    unlockTimes := List.replicate MAX_UNLOCK_TIMES 0
    unlockIndex := 0
    lockState := LockState.Locked
    flash := [66, 76, 69, 45, 84, 117, 116, 111, 114]
    logEvents := [] }

/-- Run of recorded unlock events: for each listed timestamp, unlock
from the locked state (recording the timestamp in the ring buffer) and
lock again, so that each listed time is one recorded unlock. -/
def runUnlocks (s : Lock) : List Int → Lock
  | [] => s
  | t :: ts => runUnlocks (Lock.lock (s.unlock t false)) ts

/-! ## Helper lemmas -/

/-- Reading a replicated list returns the replicated element or the
default, in either case the element when they coincide. -/
theorem getD_replicate_self (n i : Nat) (v : Int) :
    (List.replicate n v).getD i v = v := by
  induction n generalizing i with
  | zero => simp [List.getD]
  | succ n ih =>
      cases i with
      | zero => simp [List.replicate, List.getD]
      | succ i => simpa [List.replicate, List.getD] using ih i

/-- Reading after List.set: the written value at the written index when
it is in range, the prior value elsewhere. -/
theorem getD_set (l : List Int) (i j : Nat) (v d : Int) :
    (l.set i v).getD j d =
      if i = j ∧ i < l.length then v else l.getD j d := by
  induction l generalizing i j with
  | nil => simp [List.set]
  | cons x xs ih =>
      cases i with
      | zero =>
          cases j with
          | zero => simp [List.set, List.getD]
          | succ j => simp [List.set, List.getD]
      | succ i =>
          cases j with
          | zero => simp [List.set, List.getD]
          | succ j =>
              simp only [List.set, List.getD_cons_succ, ih i j,
                List.length_cons]
              omega

/-- Truncated C remainder of two natural-number casts is the cast of
the Nat remainder. -/
theorem tmod_ofNat (m n : Nat) :
    Int.tmod (m : Int) (n : Int) = ((m % n : Nat) : Int) := rfl

/-- Characterisation of a run of fewer than MAX_UNLOCK_TIMES recorded
unlocks: the ring index advances by one per recorded unlock and the
timestamps land at the successive ring slots, all other slots keeping
their prior content. -/
theorem runUnlocks_spec (ts : List Int) : ∀ s : Lock,
    s.unlockTimes.length = MAX_UNLOCK_TIMES →
    s.unlockIndex + ts.length < MAX_UNLOCK_TIMES →
    s.isLocked = true →
    (runUnlocks s ts).unlockIndex = s.unlockIndex + ts.length ∧
    (runUnlocks s ts).unlockTimes.length = MAX_UNLOCK_TIMES ∧
    ∀ i : Nat, (runUnlocks s ts).unlockTimes.getD i 0 =
      if s.unlockIndex + 1 ≤ i ∧ i ≤ s.unlockIndex + ts.length
      then ts.getD (i - (s.unlockIndex + 1)) 0
      else s.unlockTimes.getD i 0 := by
  induction ts with
  | nil =>
      intro s hlen _ _
      refine ⟨by simp [runUnlocks], by simp [runUnlocks, hlen], ?_⟩
      intro i
      have hrun : runUnlocks s [] = s := rfl
      rw [hrun, if_neg (by simp only [List.length_nil]; omega)]
  | cons t ts ih =>
      intro s hlen hidx hlock
      have h10 : MAX_UNLOCK_TIMES = 10 := rfl
      have hlt : s.unlockIndex + 1 < MAX_UNLOCK_TIMES := by
        simp only [List.length_cons] at hidx
        omega
      have hmod : (s.unlockIndex + 1) % MAX_UNLOCK_TIMES = s.unlockIndex + 1 :=
        Nat.mod_eq_of_lt hlt
      have hstep : runUnlocks s (t :: ts) =
          runUnlocks (Lock.lock (s.unlock t false)) ts := rfl
      have hIdx1 : (Lock.lock (s.unlock t false)).unlockIndex = s.unlockIndex + 1 := by
        simp [Lock.unlock, Lock.lock, Lock.updateLockState, hlock, hmod]
      have hTimes1 : (Lock.lock (s.unlock t false)).unlockTimes =
          s.unlockTimes.set (s.unlockIndex + 1) t := by
        simp [Lock.unlock, Lock.lock, Lock.updateLockState, hlock, hmod]
      have hLock1 : (Lock.lock (s.unlock t false)).isLocked = true := by
        simp [Lock.lock, Lock.updateLockState, Lock.isLocked, LockState.Locked]
      have hLen1 : (Lock.lock (s.unlock t false)).unlockTimes.length = MAX_UNLOCK_TIMES := by
        rw [hTimes1, List.length_set, hlen]
      have hidx1 : (Lock.lock (s.unlock t false)).unlockIndex + ts.length < MAX_UNLOCK_TIMES := by
        rw [hIdx1]
        simp only [List.length_cons] at hidx
        omega
      obtain ⟨hA, hB, hC⟩ := ih (Lock.lock (s.unlock t false)) hLen1 hidx1 hLock1
      refine ⟨?_, ?_, ?_⟩
      · rw [hstep, hA, hIdx1, List.length_cons]
        omega
      · rw [hstep, hB]
      · intro i
        rw [hstep, hC i, hIdx1, hTimes1, getD_set, hlen]
        by_cases hcase1 : s.unlockIndex + 1 + 1 ≤ i ∧ i ≤ s.unlockIndex + 1 + ts.length
        · have hcase2 : s.unlockIndex + 1 ≤ i ∧ i ≤ s.unlockIndex + (t :: ts).length := by
            simp only [List.length_cons]
            omega
          rw [if_pos hcase1, if_pos hcase2]
          have hsub : i - (s.unlockIndex + 1) = (i - (s.unlockIndex + 1 + 1)) + 1 := by
            omega
          rw [hsub, List.getD_cons_succ]
        · rw [if_neg hcase1]
          by_cases hhit : s.unlockIndex + 1 = i ∧ s.unlockIndex + 1 < MAX_UNLOCK_TIMES
          · have hcase2 : s.unlockIndex + 1 ≤ i ∧ i ≤ s.unlockIndex + (t :: ts).length := by
              simp only [List.length_cons]
              omega
            rw [if_pos hhit, if_pos hcase2]
            have hsub : i - (s.unlockIndex + 1) = 0 := by omega
            rw [hsub, List.getD_cons_zero]
          · have hne : ¬ s.unlockIndex + 1 = i := fun he => hhit ⟨he, hlt⟩
            have hcase2 : ¬ (s.unlockIndex + 1 ≤ i ∧ i ≤ s.unlockIndex + (t :: ts).length) := by
              simp only [List.length_cons]
              omega
            rw [if_neg hhit, if_neg hcase2]

/-! ## Claim theorems -/

/-- Claim C1: on a device whose base state is Locked with the
UpdateSecretMode flag clear, unlockWithMessage with a candidate
byte-equal to the stored secret moves the state to Unlocked, drives the
unlocked LED high and the locked LED low, appends exactly one timestamp
entry at the advanced ring-buffer index, and returns true; with a
non-matching candidate the whole state is unchanged and the call
returns false. -/
theorem unlockWithMessage_locked_spec (s : Lock) (now : Int) (message : List Nat)
    (h : s.lockState = LockState.Locked) :
    (message = s.flash →
      s.unlockWithMessage now message =
        ({ s with lockState := LockState.Unlocked,
                  unlockedLed := true, lockedLed := false,
                  lastUnlocked := now,
                  unlockIndex := (s.unlockIndex + 1) % MAX_UNLOCK_TIMES,
                  unlockTimes :=
                    s.unlockTimes.set ((s.unlockIndex + 1) % MAX_UNLOCK_TIMES) now },
         true)) ∧
    (message ≠ s.flash → s.unlockWithMessage now message = (s, false)) := by
  constructor
  · intro hmsg
    simp [Lock.unlockWithMessage, Lock.unlock, Lock.updateLockState,
      Lock.isLocked, h, hmsg, LockState.Locked, LockState.Unlocked,
      LockState.UpdateSecretCode]
  · intro hmsg
    simp [Lock.unlockWithMessage, Lock.isLocked, h, hmsg,
      LockState.Locked, LockState.UpdateSecretCode]

/-- Witness for unlockWithMessage_locked_spec at the constructed initial
state: the stored default secret unlocks the device and a wrong message
leaves it locked. -/
theorem unlockWithMessage_locked_spec_witness :
    (initLock.unlockWithMessage 7 initLock.flash =
      ({ initLock with lockState := LockState.Unlocked,
                       unlockedLed := true, lockedLed := false,
                       lastUnlocked := 7,
                       unlockIndex := (initLock.unlockIndex + 1) % MAX_UNLOCK_TIMES,
                       unlockTimes :=
                         initLock.unlockTimes.set
                           ((initLock.unlockIndex + 1) % MAX_UNLOCK_TIMES) 7 },
       true)) ∧
    (initLock.unlockWithMessage 7 [1, 2] = (initLock, false)) :=
  ⟨(unlockWithMessage_locked_spec initLock 7 initLock.flash rfl).1 rfl,
   (unlockWithMessage_locked_spec initLock 7 [1, 2] rfl).2 (by decide)⟩

/-- Concrete device state in secret-update mode entered from Locked:
lock state Locked with the UpdateSecretCode bit OR-ed on, default
secret in flash. -/
def s33 : Lock :=
  { initLock with lockState := LockState.Locked ||| LockState.UpdateSecretCode }

/-- Concrete replacement candidate, the byte content of "NEW-CODE". -/
def newMsg : List Nat := [78, 69, 87, 45, 67, 79, 68, 69]

/-- Claim C2 counterexample: from the secret-update state entered while
Locked, unlockWithMessage("NEW-CODE") leaves the UpdateSecretCode bit
set (the mode is not exited), and the subsequent
unlockWithMessage("NEW-CODE") does not succeed: it returns false, the
device still reporting locked, because the call again takes the
update branch instead of checking the candidate. -/
theorem unlockWithMessage_keeps_update_flag :
    ((s33.unlockWithMessage 5 newMsg).1.lockState &&& LockState.UpdateSecretCode) ≠ 0 ∧
    ((s33.unlockWithMessage 5 newMsg).1.unlockWithMessage 6 newMsg).2 = false := by
  decide

/-- Claim C2 as amended: with the UpdateSecretMode flag set, every
candidate replaces the stored secret without being compared to the
existing secret, but the lock state, the UpdateSecretCode flag
included, is unchanged: the mode is not exited by the write, so a
subsequent unlockWithMessage of the same candidate again takes the
update branch, rewriting the secret rather than checking it, and
returns false as long as the Locked bit is set. -/
theorem unlockWithMessage_update_mode_spec (s : Lock) (now now2 : Int)
    (message : List Nat)
    (h : (s.lockState &&& LockState.UpdateSecretCode) ≠ 0) :
    (s.unlockWithMessage now message).1.flash = message ∧
    (s.unlockWithMessage now message).1.lockState = s.lockState ∧
    (s.unlockWithMessage now message).2 = ! s.isLocked ∧
    ((s.unlockWithMessage now message).1.unlockWithMessage now2 message).1.flash
      = message ∧
    ((s.unlockWithMessage now message).1.unlockWithMessage now2 message).1.lockState
      = s.lockState ∧
    (s.isLocked = true →
      ((s.unlockWithMessage now message).1.unlockWithMessage now2 message).2 = false) := by
  have h1 : s.unlockWithMessage now message = ({ s with flash := message }, ! s.isLocked) := by
    simp [Lock.unlockWithMessage, h, Lock.isLocked]
  have h2 : ({ s with flash := message } : Lock).lockState = s.lockState := rfl
  have h' : (({ s with flash := message } : Lock).lockState &&& LockState.UpdateSecretCode) ≠ 0 := h
  have h3 : ({ s with flash := message } : Lock).unlockWithMessage now2 message =
      ({ s with flash := message }, ! s.isLocked) := by
    simp [Lock.unlockWithMessage, h', Lock.isLocked]
  refine ⟨by rw [h1], by rw [h1], by rw [h1], ?_, ?_, ?_⟩
  · rw [h1]
    simp only
    rw [h3]
  · rw [h1]
    simp only
    rw [h3]
  · intro hl
    rw [h1]
    simp only
    rw [h3]
    simp [hl]

/-- Witness for unlockWithMessage_update_mode_spec at the concrete
update-mode state s33 with the candidate newMsg. -/
theorem unlockWithMessage_update_mode_spec_witness :
    (s33.unlockWithMessage 5 newMsg).1.flash = newMsg ∧
    (s33.unlockWithMessage 5 newMsg).1.lockState = s33.lockState ∧
    (s33.unlockWithMessage 5 newMsg).2 = ! s33.isLocked ∧
    ((s33.unlockWithMessage 5 newMsg).1.unlockWithMessage 6 newMsg).1.flash = newMsg ∧
    ((s33.unlockWithMessage 5 newMsg).1.unlockWithMessage 6 newMsg).1.lockState
      = s33.lockState ∧
    (s33.isLocked = true →
      ((s33.unlockWithMessage 5 newMsg).1.unlockWithMessage 6 newMsg).2 = false) :=
  unlockWithMessage_update_mode_spec s33 5 6 newMsg (by decide)

/-- Concrete 20-byte candidate message, the byte content of
"ABCDEFGHIJKLMNOPQRST", exactly the BLE maximum packet length. -/
def msg20 : List Nat :=
  [65, 66, 67, 68, 69, 70, 71, 72, 73, 74,
   75, 76, 77, 78, 79, 80, 81, 82, 83, 84]

/-- Claim C3 evaluated at a 20-byte candidate: the store pattern of the
UpdateSecretCode branch of Lock::unlockWithMessage touches index
SECRET_CODE_MAX_LENGTH = 20, which is outside the bounds of the
20-byte Secret.code buffer, so not every store lands inside the
buffer; the terminator store changes memory one past the buffer (the
prior byte 7 becomes 0).  The code truncates nothing: the claimed
truncation and in-buffer termination do not happen. -/
theorem secret_store_out_of_bounds :
    SECRET_CODE_MAX_LENGTH ∈ secretStoreIndices msg20 ∧
    ¬ (∀ i ∈ secretStoreIndices msg20, i < SECRET_CODE_MAX_LENGTH) ∧
    updateSecretByte (fun _ => 7) msg20 SECRET_CODE_MAX_LENGTH = 0 := by
  decide

/-- Evaluation of Lock::getUnlockTime when the pre-remainder index is
the nonnegative value m: the C truncated remainder coincides with the
Nat remainder, the unsigned guard passes, and the ring entry at
m % MAX_UNLOCK_TIMES is returned. -/
theorem getUnlockTime_eq_of_index (s : Lock) (offset : Int) (m : Nat)
    (h : (s.unlockIndex : Int) - offset + (MAX_UNLOCK_TIMES : Int) = (m : Int)) :
    s.getUnlockTime offset = s.unlockTimes.getD (m % MAX_UNLOCK_TIMES) 0 := by
  have h10 : MAX_UNLOCK_TIMES = 10 := rfl
  simp only [Lock.getUnlockTime, h, tmod_ofNat]
  rw [if_pos (by rw [h10]; omega)]
  congr 1

/-- Claim C4 counterexample: after a single recorded unlock at
time 100, getUnlockTime at offset MAX_UNLOCK_TIMES = 10 (the history
capacity) returns 100, the most recent unlock time, not the zero
sentinel the claim requires for offsets at or beyond the capacity. -/
theorem getUnlockTime_capacity_wraps :
    Lock.getUnlockTime (runUnlocks initLock [100]) (MAX_UNLOCK_TIMES : Int) = 100 ∧
    Lock.getUnlockTime (runUnlocks initLock [100]) (MAX_UNLOCK_TIMES : Int) ≠ 0 := by
  decide

/-- Claim C4 as amended: after K < capacity recorded unlocks,
getUnlockTime(k) for k < K returns the timestamp k unlock events back
from the most recent (offset 0 = most recent = the Kth unlock); it
returns the zero sentinel when the offset exceeds the number of
recorded unlocks while staying below the capacity; at offset =
capacity the index computation wraps modulo the capacity, so
getUnlockTime(capacity) returns the same value as getUnlockTime(0)
rather than the zero sentinel. -/
theorem getUnlockTime_spec (times : List Int)
    (hK : times.length < MAX_UNLOCK_TIMES) :
    (∀ k : Nat, k < times.length →
      (runUnlocks initLock times).getUnlockTime (k : Int) =
        times.getD (times.length - 1 - k) 0) ∧
    (∀ offset : Nat, times.length ≤ offset → offset < MAX_UNLOCK_TIMES →
      (runUnlocks initLock times).getUnlockTime (offset : Int) = 0) ∧
    (runUnlocks initLock times).getUnlockTime (MAX_UNLOCK_TIMES : Int) =
      (runUnlocks initLock times).getUnlockTime 0 := by
  have h10 : MAX_UNLOCK_TIMES = 10 := rfl
  have hlen : initLock.unlockTimes.length = MAX_UNLOCK_TIMES := by
    simp [initLock]
  have hidx0 : initLock.unlockIndex + times.length < MAX_UNLOCK_TIMES := by
    simpa [initLock] using hK
  have hlock : initLock.isLocked = true := by decide
  obtain ⟨hIdx, hLen, hGet⟩ := runUnlocks_spec times initLock hlen hidx0 hlock
  rw [show initLock.unlockIndex = 0 from rfl] at hIdx hGet
  have hzero : ∀ i : Nat, initLock.unlockTimes.getD i 0 = 0 := by
    intro i
    simpa [initLock] using getD_replicate_self MAX_UNLOCK_TIMES i 0
  refine ⟨?_, ?_, ?_⟩
  · intro k hk
    have hcast : ((runUnlocks initLock times).unlockIndex : Int) - (k : Int)
        + (MAX_UNLOCK_TIMES : Int) = ((times.length + 10 - k : Nat) : Int) := by
      rw [hIdx]
      simp only [Nat.zero_add, h10]
      omega
    rw [getUnlockTime_eq_of_index _ _ _ hcast]
    have hmod : (times.length + 10 - k) % MAX_UNLOCK_TIMES = times.length - k := by
      rw [h10]
      omega
    rw [hmod, hGet (times.length - k),
      if_pos (by constructor <;> omega)]
    congr 1
    omega
  · intro offset hlo hhi
    have hcast : ((runUnlocks initLock times).unlockIndex : Int) - (offset : Int)
        + (MAX_UNLOCK_TIMES : Int) = ((times.length + 10 - offset : Nat) : Int) := by
      rw [hIdx]
      simp only [Nat.zero_add, h10]
      omega
    rw [getUnlockTime_eq_of_index _ _ _ hcast]
    by_cases heq : offset = times.length
    · have hmod : (times.length + 10 - offset) % MAX_UNLOCK_TIMES = 0 := by
        rw [h10]
        omega
      rw [hmod, hGet 0, if_neg (by omega)]
      exact hzero 0
    · have hmod : (times.length + 10 - offset) % MAX_UNLOCK_TIMES
          = times.length + 10 - offset := by
        rw [h10] at hhi ⊢
        omega
      rw [hmod, hGet (times.length + 10 - offset), if_neg (by omega)]
      exact hzero _
  · have hcastA : ((runUnlocks initLock times).unlockIndex : Int)
        - (MAX_UNLOCK_TIMES : Int) + (MAX_UNLOCK_TIMES : Int)
        = ((times.length : Nat) : Int) := by
      rw [hIdx]
      omega
    have hcastB : ((runUnlocks initLock times).unlockIndex : Int) - (0 : Int)
        + (MAX_UNLOCK_TIMES : Int) = ((times.length + 10 : Nat) : Int) := by
      rw [hIdx]
      simp only [Nat.zero_add, h10]
      omega
    rw [getUnlockTime_eq_of_index _ _ _ hcastA,
      getUnlockTime_eq_of_index _ _ _ hcastB]
    have hmodA : times.length % MAX_UNLOCK_TIMES = times.length := by
      rw [h10]
      omega
    have hmodB : (times.length + 10) % MAX_UNLOCK_TIMES = times.length := by
      rw [h10]
      omega
    rw [hmodA, hmodB]

/-- Witness for getUnlockTime_spec after the two recorded unlocks at
times 100 and 200: offset 0 reads 200, offset 1 reads 100, offset 5
reads the zero sentinel, and offset 10 reads the same value as
offset 0. -/
theorem getUnlockTime_spec_witness :
    (runUnlocks initLock [100, 200]).getUnlockTime ((0 : Nat) : Int) =
      [(100 : Int), 200].getD (2 - 1 - 0) 0 ∧
    (runUnlocks initLock [100, 200]).getUnlockTime ((1 : Nat) : Int) =
      [(100 : Int), 200].getD (2 - 1 - 1) 0 ∧
    (runUnlocks initLock [100, 200]).getUnlockTime ((5 : Nat) : Int) = 0 ∧
    (runUnlocks initLock [100, 200]).getUnlockTime (MAX_UNLOCK_TIMES : Int) =
      (runUnlocks initLock [100, 200]).getUnlockTime 0 :=
  ⟨(getUnlockTime_spec [100, 200] (by decide)).1 0 (by decide),
   (getUnlockTime_spec [100, 200] (by decide)).1 1 (by decide),
   (getUnlockTime_spec [100, 200] (by decide)).2.1 5 (by decide) (by decide),
   (getUnlockTime_spec [100, 200] (by decide)).2.2⟩

/-- Claim C5: the stable state of an InputHelper changes only when the
two samples agree with each other and differ from the current stable
state; a flicker where the two samples disagree changes nothing and
signals nothing; and on a confirmed toggle the callback receives the
pin, the new state and the time since the last confirmed change
computed from the prior last-change time, after which the stable state
and last-change time are updated. -/
theorem inputHelper_poll_spec (st : InputHelper) (now : Int) (a b : Bool) :
    ((st.poll now a b).1.lastState ≠ st.lastState → a = b ∧ a ≠ st.lastState) ∧
    (a ≠ b → st.poll now a b = (st, none)) ∧
    (a = b → a ≠ st.lastState →
      st.poll now a b =
        ({ st with lastState := a, lastChangeMs := now },
         some (st.pin, a, now - st.lastChangeMs))) := by
  refine ⟨?_, ?_, ?_⟩
  · intro hch
    by_cases h : a = b ∧ a ≠ st.lastState
    · exact h
    · exfalso
      apply hch
      simp [InputHelper.poll, h]
  · intro hab
    simp [InputHelper.poll, hab]
  · intro hab hne
    simp only [InputHelper.poll, if_pos (And.intro hab hne)]

/-- Witness for inputHelper_poll_spec on a concrete helper watching
pin 4, stable low since time 2: a disagreeing sample pair at time 9
changes nothing, and an agreeing high pair at time 9 toggles with
duration 9 - 2. -/
theorem inputHelper_poll_spec_witness :
    InputHelper.poll ⟨4, false, 2⟩ 9 true false = (⟨4, false, 2⟩, none) ∧
    InputHelper.poll ⟨4, false, 2⟩ 9 true true =
      (⟨4, true, 9⟩, some (4, true, 7)) := by
  constructor
  · exact (inputHelper_poll_spec ⟨4, false, 2⟩ 9 true false).2.1 (by decide)
  · have h := (inputHelper_poll_spec ⟨4, false, 2⟩ 9 true true).2.2 rfl (by decide)
    simpa using h

/-- Poll of a monitor that is stably high with no armed window: with
both samples high nothing toggles and nothing times out. -/
theorem monitor_poll_high_disarmed (T now : Int) (m : Monitor)
    (hst : m.lastState = true) (h : m.armedSince = none) :
    m.poll (some T) now true true = (m, none, none) := by
  simp [Monitor.poll, hst, h]

/-- Poll of a monitor that is stably high with an armed window that has
reached the timeout: the timeout event fires with the elapsed time and
the window is cleared. -/
theorem monitor_poll_high_fire (T now t0 : Int) (m : Monitor)
    (hst : m.lastState = true) (h : m.armedSince = some t0)
    (hfire : now - t0 ≥ T) :
    m.poll (some T) now true true =
      ({ m with armedSince := none }, none, some (m.pin, now - t0)) := by
  simp [Monitor.poll, hst, h, hfire]

/-- Poll of a monitor that is stably high with an armed window that has
not yet reached the timeout: nothing fires and nothing changes. -/
theorem monitor_poll_high_wait (T now t0 : Int) (m : Monitor)
    (hst : m.lastState = true) (h : m.armedSince = some t0)
    (hwait : ¬ now - t0 ≥ T) :
    m.poll (some T) now true true = (m, none, none) := by
  simp [Monitor.poll, hst, h, hwait]

/-- Claim C6: over any sequence of polls during which the input stays
high (every sample pair reads high) on a monitor whose stable state is
high, at most one timeout event is signalled; when a window armed at t0
is outstanding, exactly one event is signalled precisely when some poll
happens at or after t0 plus the timeout duration; and with no
outstanding window (it already fired and the input never went low) no
event is ever signalled, so the timeout cannot re-fire until the input
returns low and goes high again. -/
theorem monitor_timeout_once (T : Int) (ticks : List (Int × Bool × Bool)) :
    ∀ m : Monitor, m.lastState = true →
    (∀ x ∈ ticks, x.2.1 = true ∧ x.2.2 = true) →
    ((∀ t0 : Int, m.armedSince = some t0 →
      m.runTimeoutCount (some T) ticks ≤ 1 ∧
      (m.runTimeoutCount (some T) ticks = 1 ↔ ∃ x ∈ ticks, x.1 - t0 ≥ T)) ∧
     (m.armedSince = none → m.runTimeoutCount (some T) ticks = 0)) := by
  induction ticks with
  | nil =>
      intro m _ _
      refine ⟨fun t0 _ => ⟨by simp [Monitor.runTimeoutCount], by simp [Monitor.runTimeoutCount]⟩,
        fun _ => rfl⟩
  | cons x xs ih =>
      intro m hst hall
      obtain ⟨ha, hb⟩ := hall x (List.mem_cons_self x xs)
      obtain ⟨now, xa, xb⟩ := x
      simp only at ha hb
      subst ha
      subst hb
      have hall' : ∀ y ∈ xs, y.2.1 = true ∧ y.2.2 = true := by
        intro y hy
        exact hall y (List.mem_cons_of_mem _ hy)
      constructor
      · intro t0 harm
        by_cases hfire : now - t0 ≥ T
        · have hrun : Monitor.runTimeoutCount m (some T) ((now, true, true) :: xs) =
              1 + Monitor.runTimeoutCount { m with armedSince := none } (some T) xs := by
            simp [Monitor.runTimeoutCount, monitor_poll_high_fire T now t0 m hst harm hfire]
          have htail := (ih { m with armedSince := none } hst hall').2 rfl
          rw [hrun, htail]
          refine ⟨by omega, ?_⟩
          constructor
          · intro _
            exact ⟨(now, true, true), List.mem_cons_self _ _, hfire⟩
          · intro _
            rfl
        · have hrun : Monitor.runTimeoutCount m (some T) ((now, true, true) :: xs) =
              Monitor.runTimeoutCount m (some T) xs := by
            simp [Monitor.runTimeoutCount,
              monitor_poll_high_wait T now t0 m hst harm hfire]
          obtain ⟨hle, hiff⟩ := (ih m hst hall').1 t0 harm
          rw [hrun]
          refine ⟨hle, ?_⟩
          rw [hiff]
          constructor
          · rintro ⟨y, hy, hP⟩
            exact ⟨y, List.mem_cons_of_mem _ hy, hP⟩
          · rintro ⟨y, hy, hP⟩
            rcases List.mem_cons.mp hy with he | hmem
            · exfalso
              apply hfire
              rw [he] at hP
              exact hP
            · exact ⟨y, hmem, hP⟩
      · intro hnone
        have hrun : Monitor.runTimeoutCount m (some T) ((now, true, true) :: xs) =
            Monitor.runTimeoutCount m (some T) xs := by
          simp [Monitor.runTimeoutCount,
            monitor_poll_high_disarmed T now m hst hnone]
        rw [hrun]
        exact (ih m hst hall').2 hnone

/-- Witness for monitor_timeout_once on a monitor stably high with a
window armed at time 0 and timeout 5000, polled at times 1000, 5000 and
6000 with the input held high throughout. -/
theorem monitor_timeout_once_witness :
    Monitor.runTimeoutCount ⟨3, true, 0, some 0⟩ (some 5000)
      [(1000, true, true), (5000, true, true), (6000, true, true)] ≤ 1 ∧
    (Monitor.runTimeoutCount ⟨3, true, 0, some 0⟩ (some 5000)
      [(1000, true, true), (5000, true, true), (6000, true, true)] = 1 ↔
      ∃ x ∈ [((1000 : Int), true, true), (5000, true, true), (6000, true, true)],
        x.1 - 0 ≥ 5000) :=
  (monitor_timeout_once 5000
    [(1000, true, true), (5000, true, true), (6000, true, true)]
    ⟨3, true, 0, some 0⟩ rfl (by decide)).1 0 rfl

/-- Claim C7: one call of Lock::poll is the override-input phase, then
the multi-purpose-input phase, then the re-lock check, in that order;
and the re-lock check closes the lock exactly when, on the state left
by the two input phases, the override input is not asserted, the state
is not locked, and the time since the last unlock has reached the
configured unlock duration. -/
theorem lock_poll_order_and_relock (s : Lock) (now : Int) (oa ob ma mb : Bool) :
    s.poll now oa ob ma mb =
      (if (Lock.pollMpPhase (Lock.pollOverridePhase s now oa ob) now ma mb).overridePin.lastState = false
          ∧ (Lock.pollMpPhase (Lock.pollOverridePhase s now oa ob) now ma mb).isLocked = false
          ∧ now - (Lock.pollMpPhase (Lock.pollOverridePhase s now oa ob) now ma mb).lastUnlocked
              ≥ (Lock.pollMpPhase (Lock.pollOverridePhase s now oa ob) now ma mb).unlockedDurationMs
       then Lock.lock (Lock.pollMpPhase (Lock.pollOverridePhase s now oa ob) now ma mb)
       else Lock.pollMpPhase (Lock.pollOverridePhase s now oa ob) now ma mb) := by
  unfold Lock.poll Lock.relockCheck
  split_ifs <;> first | rfl | tauto

/-- Claim C8: on release of the multi-purpose button the held duration
is classified into exactly one of three ranges checked longest-first: a
hold of at least SECRET_CODE_DELAY_MS requests nothing, a hold of at
least FULL_LOG_DURATION_MS but under SECRET_CODE_DELAY_MS appends
exactly one full-log request, and a shorter hold appends exactly one
brief-log request; a press makes no request at all. -/
theorem mpPinPressed_spec (s : Lock) (hcb : s.hasLogCallback = true) :
    (∀ d : Int, d ≥ SECRET_CODE_DELAY_MS → s.mpPinPressed false d = s) ∧
    (∀ d : Int, FULL_LOG_DURATION_MS ≤ d → d < SECRET_CODE_DELAY_MS →
      s.mpPinPressed false d = { s with logEvents := s.logEvents ++ [true] }) ∧
    (∀ d : Int, d < FULL_LOG_DURATION_MS →
      s.mpPinPressed false d = { s with logEvents := s.logEvents ++ [false] }) ∧
    (∀ d : Int, s.mpPinPressed true d = s) := by
  refine ⟨?_, ?_, ?_, ?_⟩
  · intro d hd
    simp [Lock.mpPinPressed, hd]
  · intro d h1 h2
    simp [Lock.mpPinPressed, hcb, not_le.mpr h2, h1]
  · intro d hd
    have h2 : ¬ d ≥ SECRET_CODE_DELAY_MS := by
      unfold SECRET_CODE_DELAY_MS
      unfold FULL_LOG_DURATION_MS at hd
      omega
    have h3 : ¬ d ≥ FULL_LOG_DURATION_MS := not_le.mpr hd
    simp [Lock.mpPinPressed, hcb, h2, h3]
  · intro d
    simp [Lock.mpPinPressed]

/-- Witness for mpPinPressed_spec at the constructed initial state with
releases after holds of 6000, 3000 and 100 ms and one press. -/
theorem mpPinPressed_spec_witness :
    initLock.mpPinPressed false 6000 = initLock ∧
    initLock.mpPinPressed false 3000 =
      { initLock with logEvents := initLock.logEvents ++ [true] } ∧
    initLock.mpPinPressed false 100 =
      { initLock with logEvents := initLock.logEvents ++ [false] } ∧
    initLock.mpPinPressed true 100 = initLock :=
  ⟨(mpPinPressed_spec initLock rfl).1 6000 (by decide),
   (mpPinPressed_spec initLock rfl).2.1 3000 (by decide) (by decide),
   (mpPinPressed_spec initLock rfl).2.2.1 100 (by decide),
   (mpPinPressed_spec initLock rfl).2.2.2 100⟩

/-- Concrete device state that is unlocked with the UpdateSecretCode
flag OR-ed on, as after the long-hold ritual performed while the
device was unlocked. -/
def sUpd : Lock :=
  { initLock with lockState := LockState.Unlocked ||| LockState.UpdateSecretCode }

/-- Claim C9: lock() always sets the state to exactly Locked, with the
UpdateSecretCode flag cleared whatever it was before; in particular a
poll() tick on an unlocked device in secret-update mode whose re-lock
deadline has passed silently leaves secret-update mode: the resulting
state is exactly Locked. -/
theorem lock_clears_update_flag :
    (∀ s : Lock, (Lock.lock s).lockState = LockState.Locked ∧
      ((Lock.lock s).lockState &&& LockState.UpdateSecretCode) = 0) ∧
    (sUpd.poll DEFAULT_UNLOCK_TIME_MS false false false false).lockState
      = LockState.Locked := by
  constructor
  · intro s
    have h : (Lock.lock s).lockState = LockState.Locked := rfl
    refine ⟨h, ?_⟩
    rw [h]
    decide
  · decide

/-- Claim C10: unlock() run while the device is not locked appends
nothing to the unlock-history ring buffer and leaves the write index
alone, while still refreshing lastUnlocked and, for the manual-override
variant, moving the base state to ManuallyOverridden. -/
theorem unlock_no_history_when_unlocked (s : Lock) (now : Int)
    (h : s.isLocked = false) :
    (s.unlock now true).unlockTimes = s.unlockTimes ∧
    (s.unlock now true).unlockIndex = s.unlockIndex ∧
    (s.unlock now true).lastUnlocked = now ∧
    (s.unlock now true).lockState = LockState.ManuallyOverridden := by
  simp [Lock.unlock, Lock.updateLockState, h]

/-- Concrete unlocked device state used to witness the unlocked-unlock
behaviour. -/
def sOpen : Lock := { initLock with lockState := LockState.Unlocked }

/-- Witness for unlock_no_history_when_unlocked at a concrete unlocked
state: the override assertion at time 9 records nothing but refreshes
lastUnlocked and moves to ManuallyOverridden. -/
theorem unlock_no_history_when_unlocked_witness :
    (sOpen.unlock 9 true).unlockTimes = sOpen.unlockTimes ∧
    (sOpen.unlock 9 true).unlockIndex = sOpen.unlockIndex ∧
    (sOpen.unlock 9 true).lastUnlocked = 9 ∧
    (sOpen.unlock 9 true).lockState = LockState.ManuallyOverridden :=
  unlock_no_history_when_unlocked sOpen 9 (by decide)
